import Mathlib

/-!
Verification development for the Asynchronous Task Runner repository.

The embedding models the task-orchestration core of `src/taskRunner.js`
(validation, the three unit-of-work calling conventions, and the four
orchestration policies) together with the variant implementation in
`src/asyncTasks.js`.  JavaScript's event-loop timing is modelled by a
virtual clock: every settled outcome carries the number of simulated
milliseconds from invocation to settlement.  A `setTimeout` of `d`
milliseconds settles at virtual instant `d`; synchronous throws and
already-rejected promises settle at instant `0`.  Ties between timers are
broken by registration (input) order, exactly as Node's timer queue does.
-/

/-- A JavaScript task record as read from `tasks.json`: the fields the
orchestration core inspects (`id`, `name`, `type`, `duration`), each
possibly absent (`undefined`). -/
structure JsTask where
  id : Option Int
  name : Option String
  type : Option String
  duration : Option Nat
deriving DecidableEq, Repr

/-- A JavaScript value passed where a task record is expected: the
`validateTask` function distinguishes `undefined`, `null`, primitive
values and object records. -/
inductive JsTaskVal where
  | vundefined
  | vnull
  | num (n : Int)
  | str (s : String)
  | boolv (b : Bool)
  | obj (t : JsTask)
deriving DecidableEq, Repr

/-- The error values the core produces: `TaskValidationError` (carries the
offending value), `TaskProcessingError` (carries `taskId`/`taskName`), and
a plain `Error` as thrown for empty or non-array batches and by
`asyncTasks.js`. -/
inductive TaskError where
  | validation (message : String) (task : JsTaskVal)
  | processing (message : String) (taskId : Option Int) (taskName : Option String)
  | generic (message : String)
deriving DecidableEq, Repr

/-- Whether an error value belongs to the two-kind taxonomy of spec §7
(ValidationFailure / ProcessingFailure) as opposed to a plain `Error`. -/
def TaskError.isTaxonomy : TaskError → Bool
  | .validation _ _ => true
  | .processing _ _ _ => true
  | .generic _ => false

/-- JavaScript truthiness of a task value (`!task` in the source). -/
def jsTruthy : JsTaskVal → Bool
  | .vundefined => false
  | .vnull => false
  | .num n => decide (n ≠ 0)
  | .str s => decide (s ≠ "")
  | .boolv b => b
  | .obj _ => true

/-- Whether `typeof task === 'object'` holds (`null` has typeof
`object` in JavaScript). -/
def jsTypeofIsObject : JsTaskVal → Bool
  | .vnull => true
  | .obj _ => true
  | _ => false

/-- Property access `task.id`: `undefined` on every non-object. -/
def idField : JsTaskVal → Option Int
  | .obj t => t.id
  | _ => none

/-- Property access `task.name`. -/
def nameField : JsTaskVal → Option String
  | .obj t => t.name
  | _ => none

/-- Property access `task.type`. -/
def typeField : JsTaskVal → Option String
  | .obj t => t.type
  | _ => none

/-- Property access `task.duration`. -/
def durationField : JsTaskVal → Option Nat
  | .obj t => t.duration
  | _ => none

/-- Truthiness of the `id` field (`!task.id`): absent or `0` is falsy. -/
def idTruthy : Option Int → Bool
  | some n => decide (n ≠ 0)
  | none => false

/-- Truthiness of the `name` field (`!task.name`): absent or the empty
string is falsy. -/
def nameTruthy : Option String → Bool
  | some s => decide (s ≠ "")
  | none => false

/-- String interpolation of a possibly-absent string field. -/
def jsDisplayStr : Option String → String
  | some s => s
  | none => "undefined"

/-- String interpolation of a possibly-absent numeric field. -/
def jsDisplayInt : Option Int → String
  | some n => toString n
  | none => "undefined"

/-- The message of the simulated `TaskProcessingError` thrown by
`validateTask` in `src/taskRunner.js`. -/
def processingFailureMsg (name : Option String) : String :=
  "Cannot process task \"" ++ jsDisplayStr name ++ "\" - simulated error for demonstration"

/-- `validateTask` from `src/taskRunner.js` (lines 49-63): rejects
non-objects, records whose `id` or `name` is falsy, and records tagged
`type === 'error'`; otherwise succeeds. -/
def validateTask (task : JsTaskVal) : Except TaskError Unit :=
  if !(jsTruthy task && jsTypeofIsObject task) then
    .error (.validation "Task must be an object" task)
  else if !(idTruthy (idField task) && nameTruthy (nameField task)) then
    .error (.validation "Task must have id and name properties" task)
  else if typeField task == some "error" then
    .error (.processing (processingFailureMsg (nameField task)) (idField task) (nameField task))
  else
    .ok ()

/-- `validateTask` from `src/app.js` (lines 30-44); textually identical to
the one in `src/taskRunner.js`. -/
def appValidateTask (task : JsTaskVal) : Except TaskError Unit :=
  if !(jsTruthy task && jsTypeofIsObject task) then
    .error (.validation "Task must be an object" task)
  else if !(idTruthy (idField task) && nameTruthy (nameField task)) then
    .error (.validation "Task must have id and name properties" task)
  else if typeField task == some "error" then
    .error (.processing (processingFailureMsg (nameField task)) (idField task) (nameField task))
  else
    .ok ()

/-- JavaScript `task.duration || 300`: the default is taken when the field
is absent or `0` (both falsy). -/
def jsOrDefault (v : Option Nat) (dflt : Nat) : Nat :=
  match v with
  | some n => if n ≠ 0 then n else dflt
  | none => dflt

/-- The success summary string built by every unit-of-work convention. -/
def successMessage (task : JsTaskVal) (duration : Nat) : String :=
  "Task \"" ++ jsDisplayStr (nameField task) ++ "\" (ID: " ++
    jsDisplayInt (idField task) ++ ") completed successfully in " ++
    toString duration ++ "ms"

instance {ε α : Type} [DecidableEq ε] [DecidableEq α] : DecidableEq (Except ε α)
  | .error e, .error f =>
    if h : e = f then .isTrue (by rw [h]) else .isFalse (fun hc => by cases hc; exact h rfl)
  | .error _, .ok _ => .isFalse (fun hc => by cases hc)
  | .ok _, .error _ => .isFalse (fun hc => by cases hc)
  | .ok a, .ok b =>
    if h : a = b then .isTrue (by rw [h]) else .isFalse (fun hc => by cases hc; exact h rfl)

/-- A settled asynchronous outcome: the virtual instant (milliseconds from
invocation) at which it settles, and the value or error it settles with. -/
structure Settled (α : Type) where
  time : Nat
  result : Except TaskError α
deriving DecidableEq, Repr

/-- `processTaskCallback` from `src/taskRunner.js` (lines 85-101): a 0ms
timer, then validation; on success a timer of `task.duration || 300`
milliseconds delivers the summary, on a thrown error the error-first
callback receives the error with no further wait. -/
def processTaskCallback (task : JsTaskVal) : Settled String :=
  match validateTask task with
  | .ok _ =>
    let duration := jsOrDefault (durationField task) 300
    ⟨duration, .ok (successMessage task duration)⟩
  | .error e => ⟨0, .error e⟩

/-- `processTaskPromise` from `src/taskRunner.js` (lines 145-159):
validation inside the promise executor, then a timer of
`task.duration || 300` milliseconds resolving with the summary; a thrown
error rejects the promise immediately. -/
def processTaskPromise (task : JsTaskVal) : Settled String :=
  match validateTask task with
  | .ok _ =>
    let duration := jsOrDefault (durationField task) 300
    ⟨duration, .ok (successMessage task duration)⟩
  | .error e => ⟨0, .error e⟩

/-- `processTaskAsync` from `src/taskRunner.js` (lines 232-244): validate,
compute `task.duration || 300`, await `delay(duration)`, return the
summary; a thrown error rejects the returned promise immediately. -/
def processTaskAsync (task : JsTaskVal) : Settled String :=
  match validateTask task with
  | .ok _ =>
    let duration := jsOrDefault (durationField task) 300
    ⟨duration, .ok (successMessage task duration)⟩
  | .error e => ⟨0, .error e⟩

/-- The processing-delay timer a unit-of-work execution schedules:
`some d` when validation passes and `setTimeout`/`delay` is reached with
delay `d`, `none` when validation throws first. -/
def scheduledTimer (task : JsTaskVal) : Option Nat :=
  match validateTask task with
  | .ok _ => some (jsOrDefault (durationField task) 300)
  | .error _ => none

/-- Batch input to an orchestration policy: either not an array at all
(`Array.isArray` fails) or an ordered list of task values. -/
inductive BatchInput where
  | notArray
  | arr (tasks : List JsTaskVal)
deriving DecidableEq, Repr

/-- The message of the plain `Error` thrown for empty or non-array
batches. -/
def emptyBatchMsg : String := "Tasks must be a non-empty array"

/-- The result record of one callback invocation in
`processTasksCallbacks` of `src/taskRunner.js`: the error slot, the
results slot, plus (for analysis) the descriptors whose processing timers
were scheduled during the run and the total virtual elapsed time. -/
structure CbRun where
  error : Option TaskError
  results : Option (List String)
  timersFor : List JsTaskVal
  elapsed : Nat
deriving DecidableEq, Repr

/-- The inner `processNext` loop of `processTasksCallbacks`
(`src/taskRunner.js` lines 116-131): one task in flight at a time; on a
task error the caller's callback receives the error together with the
results accumulated so far (`callback(error, results)`). -/
def processNext (tasks : List JsTaskVal) (acc : List String)
    (timers : List JsTaskVal) (elapsed : Nat) : CbRun :=
  match tasks with
  | [] => ⟨none, some acc, timers, elapsed⟩
  | t :: rest =>
    let s := processTaskCallback t
    match s.result with
    | .error e => ⟨some e, some acc, timers, elapsed + s.time⟩
    | .ok r => processNext rest (acc ++ [r]) (timers ++ [t]) (elapsed + s.time)

/-- `processTasksCallbacks` from `src/taskRunner.js` (lines 108-134):
rejects a non-array or empty batch with a plain `Error`, otherwise runs
the sequential callback chain. -/
def processTasksCallbacks (input : BatchInput) : CbRun :=
  match input with
  | .notArray => ⟨some (.generic emptyBatchMsg), none, [], 0⟩
  | .arr tasks =>
    if tasks.length = 0 then ⟨some (.generic emptyBatchMsg), none, [], 0⟩
    else processNext tasks [] [] 0

/-- The outcome of a sequential await-style run: the settled value or
error, the descriptors whose processing timers were scheduled, and the
total virtual elapsed time. -/
structure SeqRun where
  result : Except TaskError (List String)
  timersFor : List JsTaskVal
  elapsed : Nat
deriving DecidableEq, Repr

/-- The `for`-loop body of `processTasksAsyncAwait`
(`src/taskRunner.js` lines 260-278): each task is awaited in turn; the
first thrown error is re-thrown, stopping the loop. -/
def seqStep (tasks : List JsTaskVal) (acc : List String)
    (timers : List JsTaskVal) (elapsed : Nat) : SeqRun :=
  match tasks with
  | [] => ⟨.ok acc, timers, elapsed⟩
  | t :: rest =>
    let s := processTaskAsync t
    match s.result with
    | .error e => ⟨.error e, timers, elapsed + s.time⟩
    | .ok r => seqStep rest (acc ++ [r]) (timers ++ [t]) (elapsed + s.time)

/-- `processTasksAsyncAwait` from `src/taskRunner.js` (lines 251-281):
rejects a non-array or empty batch with a plain `Error`, otherwise awaits
each task in input order, aborting on the first error. -/
def processTasksAsyncAwait (input : BatchInput) : SeqRun :=
  match input with
  | .notArray => ⟨.error (.generic emptyBatchMsg), [], 0⟩
  | .arr tasks =>
    if tasks.length = 0 then ⟨.error (.generic emptyBatchMsg), [], 0⟩
    else seqStep tasks [] [] 0

/-- `Promise.all` over settled outcomes: resolves with all values (input
order) at the instant the last settles, or rejects at the instant of the
earliest rejection; a tie between rejections is won by the earlier
promise in the array. -/
def promiseAll {α : Type} : List (Settled α) → Settled (List α)
  | [] => ⟨0, .ok []⟩
  | p :: ps =>
    let rest := promiseAll ps
    match p.result, rest.result with
    | .error e, .error f =>
      if p.time ≤ rest.time then ⟨p.time, .error e⟩ else ⟨rest.time, .error f⟩
    | .error e, .ok _ => ⟨p.time, .error e⟩
    | .ok _, .error f => ⟨rest.time, .error f⟩
    | .ok r, .ok rs => ⟨max p.time rest.time, .ok (r :: rs)⟩

/-- `processTasksParallel` from `src/taskRunner.js` (lines 190-202):
rejects a non-array or empty batch with a plain `Error`, otherwise maps
every task through `processTaskPromise` and awaits `Promise.all`. -/
def processTasksParallel (input : BatchInput) : Settled (List String) :=
  match input with
  | .notArray => ⟨0, .error (.generic emptyBatchMsg)⟩
  | .arr tasks =>
    if tasks.length = 0 then ⟨0, .error (.generic emptyBatchMsg)⟩
    else promiseAll (tasks.map processTaskPromise)

/-- `Promise.race` over a non-empty array of settled outcomes: the
earliest-settling one wins; a tie is won by the earlier promise in the
array (already-settled promises and equal timers are observed in
registration order). -/
def raceStep {α : Type} (p : Settled α) (ps : List (Settled α)) : Settled α :=
  ps.foldl (fun acc q => if q.time < acc.time then q else acc) p

/-- `processTasksRace` from `src/taskRunner.js` (lines 209-221): rejects a
non-array or empty batch with a plain `Error`, otherwise maps every task
through `processTaskPromise` and awaits `Promise.race`. -/
def processTasksRace (input : BatchInput) : Settled String :=
  match input with
  | .notArray => ⟨0, .error (.generic emptyBatchMsg)⟩
  | .arr [] => ⟨0, .error (.generic emptyBatchMsg)⟩
  | .arr (t :: rest) => raceStep (processTaskPromise t) (rest.map processTaskPromise)

/-- Effective processing duration of a task value: `task.duration || 300`. -/
def effDuration (task : JsTaskVal) : Nat := jsOrDefault (durationField task) 300

/-- The success summary a valid task settles with. -/
def okMessage (task : JsTaskVal) : String := successMessage task (effDuration task)

/-- Total effective duration of a list of task values (virtual elapsed
time of a successful sequential run). -/
def sumDurations (ts : List JsTaskVal) : Nat := (ts.map effDuration).sum

/-- The error of the first task (in input order) that `validateTask`
rejects, if any. -/
def firstFailure : List JsTaskVal → Option TaskError
  | [] => none
  | t :: ts =>
    match validateTask t with
    | .error e => some e
    | .ok _ => firstFailure ts

namespace AsyncTasks

/-- A task record of `src/asyncTasks.js`: every sample task carries all
four fields. -/
structure ATask where
  id : Int
  name : String
  duration : Nat
  shouldFail : Bool
deriving DecidableEq, Repr

/-- The result record `src/asyncTasks.js` produces for a completed task. -/
structure ATResult where
  taskId : Int
  taskName : String
  status : String
  duration : Nat
deriving DecidableEq, Repr

/-- The plain-`Error` message of a failing `asyncTasks.js` task. -/
def failMessage (t : ATask) : String := "Task \"" ++ t.name ++ "\" failed"

/-- The success record of a completing `asyncTasks.js` task. -/
def completedResult (t : ATask) : ATResult := ⟨t.id, t.name, "completed", t.duration⟩

/-- `processTaskPromise` from `src/asyncTasks.js` (lines 43-53): a timer
of `task.duration` milliseconds, after which the promise rejects when
`shouldFail` is set and resolves with the result record otherwise. -/
def processTaskPromise (t : ATask) : Settled ATResult :=
  if t.shouldFail then ⟨t.duration, .error (.generic (failMessage t))⟩
  else ⟨t.duration, .ok (completedResult t)⟩

/-- `processTasksPromises` from `src/asyncTasks.js` (lines 55-58):
`Promise.all` over the mapped tasks, with no batch-shape guard. -/
def processTasksPromises (ts : List ATask) : Settled (List ATResult) :=
  promiseAll (ts.map processTaskPromise)

/-- Insert a task into a list ordered by `duration`, after every task of
equal or smaller duration (a later-registered timer of equal delay fires
after the earlier one). -/
def insertByDuration (a : ATask) : List ATask → List ATask
  | [] => [a]
  | b :: bs => if a.duration < b.duration then a :: b :: bs else b :: insertByDuration a bs

/-- The order in which the timers started by `tasks.forEach` settle:
ascending duration, ties in input order. -/
def settleOrder (ts : List ATask) : List ATask :=
  ts.foldl (fun acc a => insertByDuration a acc) []

/-- `processTasksCallbacks` from `src/asyncTasks.js` (lines 25-40): all
timers start at once; the first invocation of the caller's callback is
`(error, null)` at the earliest failing settlement, or
`(null, results-in-completion-order)` once all tasks have completed;
with no tasks the callback is never invoked (`none`). -/
def processTasksCallbacks (ts : List ATask) :
    Option (Option TaskError × Option (List ATResult)) :=
  match (settleOrder ts).find? (fun a => a.shouldFail) with
  | some a => some (some (.generic (failMessage a)), none)
  | none =>
    match ts with
    | [] => none
    | _ :: _ => some (none, some ((settleOrder ts).map completedResult))

end AsyncTasks

/-- Maximum effective duration over a list of task values. -/
def maxDurations : List JsTaskVal → Nat
  | [] => 0
  | t :: ts => max (effDuration t) (maxDurations ts)

def taskA : JsTaskVal := .obj ⟨some 1, some "alpha", none, some 100⟩

def taskB : JsTaskVal := .obj ⟨some 2, some "beta", none, some 200⟩

def taskBoom : JsTaskVal := .obj ⟨some 9, some "boom", some "error", some 500⟩

def boomError : TaskError :=
  .processing (processingFailureMsg (some "boom")) (some 9) (some "boom")

/-- An invalid descriptor in the sense of claim C8: absent (`undefined` or
`null`), a non-record value, or an object record lacking `id` or `name`. -/
def ClaimInvalid (v : JsTaskVal) : Prop :=
  match v with
  | .obj t => t.id = none ∨ t.name = none
  | _ => True

/-- A descriptor failing the shape check of `validateTask`: not an object,
or with a falsy `id` or `name` field. -/
def ShapeInvalid (v : JsTaskVal) : Prop :=
  match v with
  | .obj t => idTruthy t.id = false ∨ nameTruthy t.name = false
  | _ => True

/-- The record `t` with its `id` field removed. -/
def withoutId (t : JsTask) : JsTask := ⟨none, t.name, t.type, t.duration⟩

/-- The record `t` with its `name` field removed. -/
def withoutName (t : JsTask) : JsTask := ⟨t.id, none, t.type, t.duration⟩

def zeroDurTask : JsTaskVal := .obj ⟨some 7, some "zed", none, some 0⟩

def fastTask : JsTaskVal := .obj ⟨some 1, some "fast", none, some 100⟩

def raceT500 : JsTaskVal := .obj ⟨some 1, some "t500", none, some 500⟩

def raceT100 : JsTaskVal := .obj ⟨some 2, some "t100", none, some 100⟩

def raceT300 : JsTaskVal := .obj ⟨some 3, some "t300", none, some 300⟩

def tieA : JsTaskVal := .obj ⟨some 4, some "tieA", none, some 200⟩

def tieB : JsTaskVal := .obj ⟨some 5, some "tieB", none, some 200⟩

-- sanity examples (concrete evaluation of the embedding)
example : validateTask (.obj ⟨some 1, some "a", none, some 100⟩) = .ok () := by decide
example : validateTask .vnull =
    .error (.validation "Task must be an object" .vnull) := by decide
example : validateTask (.obj ⟨some 0, some "a", none, none⟩) =
    .error (.validation "Task must have id and name properties" (.obj ⟨some 0, some "a", none, none⟩)) := by
  decide
example : processTaskPromise (.obj ⟨some 1, some "a", none, some 100⟩) =
    ⟨100, .ok "Task \"a\" (ID: 1) completed successfully in 100ms"⟩ := by decide
example : processTaskPromise (.obj ⟨some 1, some "a", none, some 0⟩) =
    ⟨300, .ok "Task \"a\" (ID: 1) completed successfully in 300ms"⟩ := by decide
example : processTaskPromise (.obj ⟨some 2, some "b", some "error", some 500⟩) =
    ⟨0, .error (.processing (processingFailureMsg (some "b")) (some 2) (some "b"))⟩ := by decide

-- sanity examples for the orchestration layer
example : processTasksAsyncAwait (.arr [.obj ⟨some 1, some "a", none, some 100⟩,
    .obj ⟨some 2, some "b", none, some 200⟩]) =
    ⟨.ok ["Task \"a\" (ID: 1) completed successfully in 100ms",
          "Task \"b\" (ID: 2) completed successfully in 200ms"],
     [.obj ⟨some 1, some "a", none, some 100⟩, .obj ⟨some 2, some "b", none, some 200⟩],
     300⟩ := by decide
example : (processTasksRace (.arr [.obj ⟨some 1, some "a", none, some 500⟩,
    .obj ⟨some 2, some "b", none, some 100⟩,
    .obj ⟨some 3, some "c", none, some 300⟩])).time = 100 := by decide
example : (processTasksParallel (.arr [.obj ⟨some 1, some "a", none, some 100⟩,
    .obj ⟨none, none, none, none⟩])).result =
    .error (.validation "Task must have id and name properties" (.obj ⟨none, none, none, none⟩)) := by
  decide
example : AsyncTasks.processTasksCallbacks
    [⟨1, "x", 500, false⟩, ⟨2, "y", 200, true⟩] =
    some (some (.generic "Task \"y\" failed"), none) := by decide
example : AsyncTasks.processTasksPromises [] = ⟨0, .ok []⟩ := by decide

theorem procConventions_eq (task : JsTaskVal) :
    processTaskCallback task = processTaskPromise task ∧
    processTaskAsync task = processTaskPromise task :=
  ⟨rfl, rfl⟩

theorem processTaskPromise_ok (t : JsTaskVal) (h : validateTask t = .ok ()) :
    processTaskPromise t = ⟨effDuration t, .ok (okMessage t)⟩ := by
  simp [processTaskPromise, h, effDuration, okMessage]

theorem processTaskPromise_error (t : JsTaskVal) (e : TaskError)
    (h : validateTask t = .error e) :
    processTaskPromise t = ⟨0, .error e⟩ := by
  simp [processTaskPromise, h]

theorem seqStep_append (pre rest : List JsTaskVal) (acc : List String)
    (timers : List JsTaskVal) (elapsed : Nat)
    (h : ∀ u ∈ pre, validateTask u = .ok ()) :
    seqStep (pre ++ rest) acc timers elapsed =
      seqStep rest (acc ++ pre.map okMessage) (timers ++ pre)
        (elapsed + sumDurations pre) := by
  induction pre generalizing acc timers elapsed with
  | nil => simp [sumDurations]
  | cons t ts ih =>
    have ht : validateTask t = .ok () := h t (List.mem_cons_self t ts)
    have hts : ∀ u ∈ ts, validateTask u = .ok () :=
      fun u hu => h u (List.mem_cons_of_mem t hu)
    have hstep : processTaskAsync t = ⟨effDuration t, .ok (okMessage t)⟩ :=
      processTaskPromise_ok t ht
    simp only [List.cons_append, seqStep, hstep, List.append_eq]
    rw [ih _ _ _ hts]
    simp [sumDurations, Nat.add_assoc]

theorem processNext_append (pre rest : List JsTaskVal) (acc : List String)
    (timers : List JsTaskVal) (elapsed : Nat)
    (h : ∀ u ∈ pre, validateTask u = .ok ()) :
    processNext (pre ++ rest) acc timers elapsed =
      processNext rest (acc ++ pre.map okMessage) (timers ++ pre)
        (elapsed + sumDurations pre) := by
  induction pre generalizing acc timers elapsed with
  | nil => simp [sumDurations]
  | cons t ts ih =>
    have ht : validateTask t = .ok () := h t (List.mem_cons_self t ts)
    have hts : ∀ u ∈ ts, validateTask u = .ok () :=
      fun u hu => h u (List.mem_cons_of_mem t hu)
    have hstep : processTaskCallback t = ⟨effDuration t, .ok (okMessage t)⟩ :=
      processTaskPromise_ok t ht
    simp only [List.cons_append, processNext, hstep, List.append_eq]
    rw [ih _ _ _ hts]
    simp [sumDurations, Nat.add_assoc]

theorem promiseAll_map_ok (ts : List JsTaskVal)
    (h : ∀ u ∈ ts, validateTask u = .ok ()) :
    promiseAll (ts.map processTaskPromise) =
      ⟨maxDurations ts, .ok (ts.map okMessage)⟩ := by
  induction ts with
  | nil => rfl
  | cons t ts ih =>
    have ht : validateTask t = .ok () := h t (List.mem_cons_self t ts)
    have hts : ∀ u ∈ ts, validateTask u = .ok () :=
      fun u hu => h u (List.mem_cons_of_mem t hu)
    simp [promiseAll, ih hts, processTaskPromise_ok t ht, maxDurations]

theorem promiseAll_firstFailure (ts : List JsTaskVal) (e : TaskError)
    (h : firstFailure ts = some e) :
    promiseAll (ts.map processTaskPromise) = ⟨0, .error e⟩ := by
  induction ts with
  | nil => simp [firstFailure] at h
  | cons t ts ih =>
    cases hv : validateTask t with
    | error f =>
      have hfe : f = e := by
        rw [firstFailure, hv] at h
        exact Option.some_injective _ h
      subst hfe
      simp only [List.map_cons, promiseAll, processTaskPromise_error t f hv]
      cases hr : (promiseAll (List.map processTaskPromise ts)).result with
      | error g => simp [hr, Nat.zero_le]
      | ok rs => simp [hr]
    | ok u =>
      cases u
      have h' : firstFailure ts = some e := by rwa [firstFailure, hv] at h
      simp only [List.map_cons, promiseAll, processTaskPromise_ok t hv, ih h']

theorem raceStep_cons {α : Type} (p q : Settled α) (qs : List (Settled α)) :
    raceStep p (q :: qs) = raceStep (if q.time < p.time then q else p) qs := by
  simp [raceStep, List.foldl_cons]

theorem raceStep_time_le {α : Type} (p : Settled α) (ps : List (Settled α)) :
    (raceStep p ps).time ≤ p.time := by
  induction ps generalizing p with
  | nil => exact Nat.le_refl _
  | cons q qs ih =>
    rw [raceStep_cons]
    by_cases hq : q.time < p.time
    · rw [if_pos hq]
      exact Nat.le_trans (ih q) (Nat.le_of_lt hq)
    · rw [if_neg hq]
      exact ih p

theorem raceStep_split {α : Type} (p : Settled α) (ps : List (Settled α)) :
    ∃ l r, p :: ps = l ++ raceStep p ps :: r ∧
      (∀ q ∈ l, (raceStep p ps).time < q.time) ∧
      (∀ q ∈ r, (raceStep p ps).time ≤ q.time) := by
  induction ps generalizing p with
  | nil =>
    refine ⟨[], [], by simp [raceStep], ?_, ?_⟩
    · intro q hq; cases hq
    · intro q hq; cases hq
  | cons q qs ih =>
    by_cases hq : q.time < p.time
    · have hstep : raceStep p (q :: qs) = raceStep q qs := by
        rw [raceStep_cons, if_pos hq]
      obtain ⟨l, r, heq, hl, hr⟩ := ih q
      refine ⟨p :: l, r, ?_, ?_, ?_⟩
      · rw [hstep, List.cons_append, ← heq]
      · intro x hx
        rw [hstep]
        rcases List.mem_cons.mp hx with hx | hx
        · subst hx
          exact Nat.lt_of_le_of_lt (raceStep_time_le q qs) hq
        · exact hl x hx
      · intro x hx
        rw [hstep]
        exact hr x hx
    · have hstep : raceStep p (q :: qs) = raceStep p qs := by
        rw [raceStep_cons, if_neg hq]
      have hpq : p.time ≤ q.time := Nat.le_of_not_lt hq
      obtain ⟨l, r, heq, hl, hr⟩ := ih p
      cases l with
      | nil =>
        rw [List.nil_append] at heq
        injection heq with h1 h2
        refine ⟨[], q :: qs, ?_, ?_, ?_⟩
        · rw [hstep, List.nil_append, ← h1]
        · intro x hx; cases hx
        · intro x hx
          rw [hstep]
          rcases List.mem_cons.mp hx with hx | hx
          · subst hx
            rw [← h1]
            exact hpq
          · rw [h2] at hx
            exact hr x hx
      | cons a l2 =>
        rw [List.cons_append] at heq
        injection heq with h1 h2
        have hap : (raceStep p qs).time < p.time := by
          have := hl a (List.mem_cons_self a l2)
          rwa [← h1] at this
        refine ⟨p :: q :: l2, r, ?_, ?_, ?_⟩
        · rw [hstep, List.cons_append, List.cons_append, ← h2]
        · intro x hx
          rw [hstep]
          rcases List.mem_cons.mp hx with hx | hx
          · subst hx
            exact hap
          · rcases List.mem_cons.mp hx with hx | hx
            · subst hx
              exact Nat.lt_of_lt_of_le hap hpq
            · exact hl x (List.mem_cons_of_mem a hx)
        · intro x hx
          rw [hstep]
          exact hr x hx

namespace AsyncTasks

theorem mem_insertByDuration (a b : ATask) (l : List ATask) :
    b ∈ insertByDuration a l ↔ b = a ∨ b ∈ l := by
  induction l with
  | nil => simp [insertByDuration]
  | cons c cs ih =>
    by_cases hc : a.duration < c.duration
    · simp [insertByDuration, hc]
    · simp [insertByDuration, hc, ih]
      tauto

theorem mem_settleOrder (b : ATask) (ts : List ATask) :
    b ∈ settleOrder ts ↔ b ∈ ts := by
  have key : ∀ (ts acc : List ATask),
      b ∈ ts.foldl (fun acc a => insertByDuration a acc) acc ↔ b ∈ acc ∨ b ∈ ts := by
    intro ts
    induction ts with
    | nil => intro acc; simp
    | cons t ts ih =>
      intro acc
      rw [List.foldl_cons, ih, mem_insertByDuration, List.mem_cons]
      tauto
  rw [settleOrder, key ts []]
  simp

end AsyncTasks

theorem validateTask_shapeInvalid (v : JsTaskVal) (h : ShapeInvalid v) :
    ∃ m, validateTask v = .error (.validation m v) := by
  cases v with
  | obj t =>
    have h' : idTruthy t.id = false ∨ nameTruthy t.name = false := h
    refine ⟨"Task must have id and name properties", ?_⟩
    have hfalse : (idTruthy t.id && nameTruthy t.name) = false := by
      rcases h' with h' | h' <;> simp [h']
    simp [validateTask, jsTruthy, jsTypeofIsObject, idField, nameField, hfalse]
  | vundefined => exact ⟨"Task must be an object", by decide⟩
  | vnull => exact ⟨"Task must be an object", by decide⟩
  | num n => exact ⟨"Task must be an object", by simp [validateTask, jsTypeofIsObject]⟩
  | str s => exact ⟨"Task must be an object", by simp [validateTask, jsTypeofIsObject]⟩
  | boolv b => exact ⟨"Task must be an object", by simp [validateTask, jsTypeofIsObject]⟩

/-- Claim C5: the three unit-of-work calling conventions
(`processTaskCallback`, `processTaskPromise`, `processTaskAsync`) are
observably equivalent: for every descriptor they perform the same
validation, classify the outcome identically (same success summary or the
same failure value), and settle at the same virtual elapsed instant. -/
theorem unitConventionsEquivalent :
    ∀ task : JsTaskVal,
      processTaskCallback task = processTaskPromise task ∧
      processTaskAsync task = processTaskPromise task := by
  intro task
  exact procConventions_eq task

/-- Claim C8: an invalid descriptor (absent, not a record, or lacking `id`
or `name`) makes every executor convention fail with a
`TaskValidationError` at virtual instant 0, with no processing-delay timer
scheduled. -/
theorem invalidDescriptorFailsFast (v : JsTaskVal) (h : ClaimInvalid v) :
    ∃ m, validateTask v = .error (.validation m v) ∧
      processTaskCallback v = ⟨0, .error (.validation m v)⟩ ∧
      processTaskPromise v = ⟨0, .error (.validation m v)⟩ ∧
      processTaskAsync v = ⟨0, .error (.validation m v)⟩ ∧
      scheduledTimer v = none := by
  have hs : ShapeInvalid v := by
    cases v with
    | obj t =>
      have h' : t.id = none ∨ t.name = none := h
      show idTruthy t.id = false ∨ nameTruthy t.name = false
      rcases h' with h' | h'
      · exact Or.inl (by simp [h', idTruthy])
      · exact Or.inr (by simp [h', nameTruthy])
    | vundefined => trivial
    | vnull => trivial
    | num n => trivial
    | str s => trivial
    | boolv b => trivial
  obtain ⟨m, hm⟩ := validateTask_shapeInvalid v hs
  refine ⟨m, hm, ?_, ?_, ?_, ?_⟩
  · rw [(procConventions_eq v).1]
    exact processTaskPromise_error v _ hm
  · exact processTaskPromise_error v _ hm
  · rw [(procConventions_eq v).2]
    exact processTaskPromise_error v _ hm
  · simp [scheduledTimer, hm]

theorem invalidDescriptorFailsFast_witness :
    ClaimInvalid (.obj ⟨none, some "ghost", none, some 100⟩) ∧
    (∃ m, validateTask (.obj ⟨none, some "ghost", none, some 100⟩) =
        .error (.validation m (.obj ⟨none, some "ghost", none, some 100⟩)) ∧
      processTaskCallback (.obj ⟨none, some "ghost", none, some 100⟩) =
        ⟨0, .error (.validation m (.obj ⟨none, some "ghost", none, some 100⟩))⟩ ∧
      processTaskPromise (.obj ⟨none, some "ghost", none, some 100⟩) =
        ⟨0, .error (.validation m (.obj ⟨none, some "ghost", none, some 100⟩))⟩ ∧
      processTaskAsync (.obj ⟨none, some "ghost", none, some 100⟩) =
        ⟨0, .error (.validation m (.obj ⟨none, some "ghost", none, some 100⟩))⟩ ∧
      scheduledTimer (.obj ⟨none, some "ghost", none, some 100⟩) = none) :=
  ⟨Or.inl rfl, invalidDescriptorFailsFast (.obj ⟨none, some "ghost", none, some 100⟩) (Or.inl rfl)⟩

/-- Claim C9: the two failure kinds are never conflated: a well-formed
descriptor tagged `type == "error"` fails with a `TaskProcessingError`
carrying `taskId` and `taskName` (never a validation error), while a
descriptor failing the shape check fails with a `TaskValidationError`
carrying the offending descriptor (never a processing error). -/
theorem failureKindsNotConflated (t : JsTask) (v : JsTaskVal) :
    (idTruthy t.id = true → nameTruthy t.name = true → t.type = some "error" →
       validateTask (.obj t) =
         .error (.processing (processingFailureMsg t.name) t.id t.name) ∧
       processTaskPromise (.obj t) =
         ⟨0, .error (.processing (processingFailureMsg t.name) t.id t.name)⟩) ∧
    (ShapeInvalid v →
       ∃ m, validateTask v = .error (.validation m v) ∧
         processTaskPromise v = ⟨0, .error (.validation m v)⟩) := by
  constructor
  · intro hid hname htype
    have hv : validateTask (.obj t) =
        .error (.processing (processingFailureMsg t.name) t.id t.name) := by
      simp [validateTask, jsTruthy, jsTypeofIsObject, idField, nameField, typeField,
        hid, hname, htype]
    exact ⟨hv, processTaskPromise_error _ _ hv⟩
  · intro h
    obtain ⟨m, hm⟩ := validateTask_shapeInvalid v h
    exact ⟨m, hm, processTaskPromise_error v _ hm⟩

theorem failureKindsNotConflated_witness :
    idTruthy (some 9) = true ∧ nameTruthy (some "boom") = true ∧
    (validateTask taskBoom = .error boomError ∧
      processTaskPromise taskBoom = ⟨0, .error boomError⟩) ∧
    ShapeInvalid (.obj ⟨some 0, some "x", none, none⟩) ∧
    (∃ m, validateTask (.obj ⟨some 0, some "x", none, none⟩) =
        .error (.validation m (.obj ⟨some 0, some "x", none, none⟩)) ∧
      processTaskPromise (.obj ⟨some 0, some "x", none, none⟩) =
        ⟨0, .error (.validation m (.obj ⟨some 0, some "x", none, none⟩))⟩) :=
  ⟨by decide, by decide,
   (failureKindsNotConflated ⟨some 9, some "boom", some "error", some 500⟩
      (.obj ⟨some 0, some "x", none, none⟩)).1 (by decide) (by decide) rfl,
   Or.inl rfl,
   (failureKindsNotConflated ⟨some 9, some "boom", some "error", some 500⟩
      (.obj ⟨some 0, some "x", none, none⟩)).2 (Or.inl rfl)⟩

/-- Claim C10: a descriptor whose `id` is present but `0`, or whose `name`
is present but empty, is rejected by every convention with the
`TaskValidationError` message "Task must have id and name properties" —
the same failure the absent-field variants produce — at instant 0, with no
timer scheduled; the duplicate `validateTask` in `src/app.js` agrees. -/
theorem falsyIdOrNameRejectedAsAbsent (t : JsTask)
    (h : t.id = some 0 ∨ t.name = some "") :
    validateTask (.obj t) =
      .error (.validation "Task must have id and name properties" (.obj t)) ∧
    processTaskCallback (.obj t) =
      ⟨0, .error (.validation "Task must have id and name properties" (.obj t))⟩ ∧
    processTaskPromise (.obj t) =
      ⟨0, .error (.validation "Task must have id and name properties" (.obj t))⟩ ∧
    processTaskAsync (.obj t) =
      ⟨0, .error (.validation "Task must have id and name properties" (.obj t))⟩ ∧
    scheduledTimer (.obj t) = none ∧
    appValidateTask (.obj t) = validateTask (.obj t) ∧
    validateTask (.obj (withoutId t)) =
      .error (.validation "Task must have id and name properties" (.obj (withoutId t))) ∧
    validateTask (.obj (withoutName t)) =
      .error (.validation "Task must have id and name properties" (.obj (withoutName t))) := by
  have hfalse : (idTruthy t.id && nameTruthy t.name) = false := by
    rcases h with h | h <;> simp [h, idTruthy, nameTruthy]
  have hv : validateTask (.obj t) =
      .error (.validation "Task must have id and name properties" (.obj t)) := by
    simp [validateTask, jsTruthy, jsTypeofIsObject, idField, nameField, hfalse]
  refine ⟨hv, ?_, ?_, ?_, ?_, rfl, ?_, ?_⟩
  · rw [(procConventions_eq (.obj t)).1]
    exact processTaskPromise_error _ _ hv
  · exact processTaskPromise_error _ _ hv
  · rw [(procConventions_eq (.obj t)).2]
    exact processTaskPromise_error _ _ hv
  · simp [scheduledTimer, hv]
  · simp [validateTask, jsTruthy, jsTypeofIsObject, idField, nameField, withoutId, idTruthy]
  · simp [validateTask, jsTruthy, jsTypeofIsObject, idField, nameField, withoutName, nameTruthy]

theorem falsyIdOrNameRejectedAsAbsent_witness :
    ((⟨some 0, some "zero", none, some 50⟩ : JsTask).id = some 0 ∨
      (⟨some 0, some "zero", none, some 50⟩ : JsTask).name = some "") ∧
    (validateTask (.obj ⟨some 0, some "zero", none, some 50⟩) =
      .error (.validation "Task must have id and name properties"
        (.obj ⟨some 0, some "zero", none, some 50⟩)) ∧
    processTaskCallback (.obj ⟨some 0, some "zero", none, some 50⟩) =
      ⟨0, .error (.validation "Task must have id and name properties"
        (.obj ⟨some 0, some "zero", none, some 50⟩))⟩ ∧
    processTaskPromise (.obj ⟨some 0, some "zero", none, some 50⟩) =
      ⟨0, .error (.validation "Task must have id and name properties"
        (.obj ⟨some 0, some "zero", none, some 50⟩))⟩ ∧
    processTaskAsync (.obj ⟨some 0, some "zero", none, some 50⟩) =
      ⟨0, .error (.validation "Task must have id and name properties"
        (.obj ⟨some 0, some "zero", none, some 50⟩))⟩ ∧
    scheduledTimer (.obj ⟨some 0, some "zero", none, some 50⟩) = none ∧
    appValidateTask (.obj ⟨some 0, some "zero", none, some 50⟩) =
      validateTask (.obj ⟨some 0, some "zero", none, some 50⟩) ∧
    validateTask (.obj (withoutId ⟨some 0, some "zero", none, some 50⟩)) =
      .error (.validation "Task must have id and name properties"
        (.obj (withoutId ⟨some 0, some "zero", none, some 50⟩))) ∧
    validateTask (.obj (withoutName ⟨some 0, some "zero", none, some 50⟩)) =
      .error (.validation "Task must have id and name properties"
        (.obj (withoutName ⟨some 0, some "zero", none, some 50⟩)))) :=
  ⟨Or.inl rfl, falsyIdOrNameRejectedAsAbsent ⟨some 0, some "zero", none, some 50⟩ (Or.inl rfl)⟩

/-- Claim C2: for every non-empty batch, the All-parallel policy
(`processTasksParallel`) resolves on all-success with the result list in
input order, and when some descriptor fails it rejects with the
first-observed error (the earliest-settling rejection, which for this
executor is the first failing descriptor in input order) and returns no
partial results. -/
theorem parallelOrderAndFirstError (t : JsTaskVal) (ts : List JsTaskVal) :
    ((∀ u ∈ t :: ts, validateTask u = .ok ()) →
       (processTasksParallel (.arr (t :: ts))).result =
         .ok ((t :: ts).map okMessage)) ∧
    (∀ e, firstFailure (t :: ts) = some e →
       (processTasksParallel (.arr (t :: ts))).result = .error e) := by
  have hne : processTasksParallel (.arr (t :: ts)) =
      promiseAll ((t :: ts).map processTaskPromise) := by
    simp [processTasksParallel]
  constructor
  · intro h
    rw [hne, promiseAll_map_ok _ h]
  · intro e he
    rw [hne, promiseAll_firstFailure _ e he]

theorem parallelOrderAndFirstError_witness :
    (∀ u ∈ [taskA, taskB], validateTask u = .ok ()) ∧
    (processTasksParallel (.arr [taskA, taskB])).result =
      .ok (List.map okMessage [taskA, taskB]) ∧
    firstFailure [taskA, taskBoom] = some boomError ∧
    (processTasksParallel (.arr [taskA, taskBoom])).result = .error boomError :=
  ⟨by decide, (parallelOrderAndFirstError taskA [taskB]).1 (by decide),
   by decide, (parallelOrderAndFirstError taskA [taskBoom]).2 boomError (by decide)⟩

/-- Claim C3: in a batch whose descriptors before the first error-typed
one all validate, each Sequential policy (`processTasksAsyncAwait` and
`processTasksCallbacks`) aborts at that descriptor with a
`TaskProcessingError` carrying its `id` and `name`; the processing timers
scheduled during the run are exactly those of the preceding descriptors,
so no descriptor after the aborting one ever executes. -/
theorem sequentialAbortsAtErrorTask (pre post : List JsTaskVal) (t : JsTask)
    (hpre : ∀ u ∈ pre, validateTask u = .ok ())
    (hid : idTruthy t.id = true) (hname : nameTruthy t.name = true)
    (htype : t.type = some "error") :
    processTasksAsyncAwait (.arr (pre ++ .obj t :: post)) =
      ⟨.error (.processing (processingFailureMsg t.name) t.id t.name),
       pre, sumDurations pre⟩ ∧
    processTasksCallbacks (.arr (pre ++ .obj t :: post)) =
      ⟨some (.processing (processingFailureMsg t.name) t.id t.name),
       some (pre.map okMessage), pre, sumDurations pre⟩ := by
  have hv : validateTask (.obj t) =
      .error (.processing (processingFailureMsg t.name) t.id t.name) := by
    simp [validateTask, jsTruthy, jsTypeofIsObject, idField, nameField, typeField,
      hid, hname, htype]
  constructor
  · have h1 : processTasksAsyncAwait (.arr (pre ++ .obj t :: post)) =
        seqStep (pre ++ .obj t :: post) [] [] 0 := by
      simp [processTasksAsyncAwait]
    rw [h1, seqStep_append pre (.obj t :: post) [] [] 0 hpre]
    simp [seqStep, processTaskAsync, hv]
  · have h1 : processTasksCallbacks (.arr (pre ++ .obj t :: post)) =
        processNext (pre ++ .obj t :: post) [] [] 0 := by
      simp [processTasksCallbacks]
    rw [h1, processNext_append pre (.obj t :: post) [] [] 0 hpre]
    simp [processNext, processTaskCallback, hv]

theorem sequentialAbortsAtErrorTask_witness :
    (∀ u ∈ [taskA], validateTask u = .ok ()) ∧
    idTruthy (some 9) = true ∧ nameTruthy (some "boom") = true ∧
    (processTasksAsyncAwait (.arr ([taskA] ++
        .obj ⟨some 9, some "boom", some "error", some 500⟩ :: [taskB])) =
      ⟨.error (.processing (processingFailureMsg (some "boom")) (some 9) (some "boom")),
       [taskA], sumDurations [taskA]⟩ ∧
    processTasksCallbacks (.arr ([taskA] ++
        .obj ⟨some 9, some "boom", some "error", some 500⟩ :: [taskB])) =
      ⟨some (.processing (processingFailureMsg (some "boom")) (some 9) (some "boom")),
       some (List.map okMessage [taskA]), [taskA], sumDurations [taskA]⟩) :=
  ⟨by decide, by decide, by decide,
   sequentialAbortsAtErrorTask [taskA] [taskB]
     ⟨some 9, some "boom", some "error", some 500⟩
     (by decide) (by decide) (by decide) rfl⟩

/-- Claim C4 (counterexample): in `processTasksCallbacks` of
`src/taskRunner.js`, when the second descriptor fails, the completion
handler receives the partial result of the first descriptor alongside the
error (`callback(error, results)` at line 124) — the results slot is not
`null`, so partial results are not discarded. -/
theorem callbackPartialResultsNotDiscarded :
    (processTasksCallbacks (.arr [taskA, taskBoom])).results =
      some ["Task \"alpha\" (ID: 1) completed successfully in 100ms"] ∧
    (processTasksCallbacks (.arr [taskA, taskBoom])).results ≠ none ∧
    (processTasksCallbacks (.arr [taskA, taskBoom])).error = some boomError := by
  decide

/-- Claim C4 (amended): when a descriptor fails in the sequential
callback chain of `src/taskRunner.js`, the completion handler receives
the error together with the partial results collected before it (the
results argument is the partial list, not `null`); the variant
`processTasksCallbacks` of `src/asyncTasks.js` does discard them — its
first callback invocation on a failing batch carries `null` results. -/
theorem callbackFailureKeepsPartialResults (pre post : List JsTaskVal)
    (t : JsTaskVal) (e : TaskError)
    (hpre : ∀ u ∈ pre, validateTask u = .ok ())
    (ht : validateTask t = .error e) :
    processTasksCallbacks (.arr (pre ++ t :: post)) =
      ⟨some e, some (pre.map okMessage), pre, sumDurations pre⟩ ∧
    (∀ ats : List AsyncTasks.ATask, ∀ a ∈ ats, a.shouldFail = true →
       ∃ f, AsyncTasks.processTasksCallbacks ats = some (some f, none)) := by
  constructor
  · have h1 : processTasksCallbacks (.arr (pre ++ t :: post)) =
        processNext (pre ++ t :: post) [] [] 0 := by
      simp [processTasksCallbacks]
    rw [h1, processNext_append pre (t :: post) [] [] 0 hpre]
    simp [processNext, processTaskCallback, ht]
  · intro ats a ha hf
    have hmem : a ∈ AsyncTasks.settleOrder ats :=
      (AsyncTasks.mem_settleOrder a ats).mpr ha
    have hsome : ((AsyncTasks.settleOrder ats).find? (fun x => x.shouldFail)).isSome := by
      rw [List.find?_isSome]
      exact ⟨a, hmem, hf⟩
    obtain ⟨b, hb⟩ := Option.isSome_iff_exists.mp hsome
    refine ⟨.generic (AsyncTasks.failMessage b), ?_⟩
    simp [AsyncTasks.processTasksCallbacks, hb]

theorem callbackFailureKeepsPartialResults_witness :
    (∀ u ∈ [taskA], validateTask u = .ok ()) ∧
    validateTask taskBoom = .error boomError ∧
    processTasksCallbacks (.arr ([taskA] ++ taskBoom :: [taskB])) =
      ⟨some boomError, some (List.map okMessage [taskA]), [taskA], sumDurations [taskA]⟩ ∧
    (∃ f, AsyncTasks.processTasksCallbacks [⟨5, "flaky", 200, true⟩] =
      some (some f, none)) :=
  ⟨by decide, by decide,
   (callbackFailureKeepsPartialResults [taskA] [taskB] taskBoom boomError
      (by decide) (by decide)).1,
   (callbackFailureKeepsPartialResults [taskA] [taskB] taskBoom boomError
      (by decide) (by decide)).2 [⟨5, "flaky", 200, true⟩]
     ⟨5, "flaky", 200, true⟩ (List.mem_singleton.mpr rfl) rfl⟩

/-- Claim C7 (counterexample): a well-formed descriptor with
`duration: 0` present waits the default 300 milliseconds, not 0 — the
source computes `task.duration || 300` and `0` is falsy. -/
theorem zeroDurationWaitsDefault :
    durationField zeroDurTask = some 0 ∧
    validateTask zeroDurTask = .ok () ∧
    (processTaskAsync zeroDurTask).time = 300 ∧
    (processTaskAsync zeroDurTask).time ≠ 0 ∧
    (processTaskPromise zeroDurTask).time = 300 := by
  decide

/-- Claim C7 (amended): for every well-formed non-error descriptor, the
elapsed wait of each executor convention equals the `duration` field when
it is present and non-zero, and equals the default 300 milliseconds when
the field is absent or `0`. -/
theorem effectiveDurationWait (t : JsTask) (h : validateTask (.obj t) = .ok ()) :
    (∀ d, t.duration = some d → d ≠ 0 →
       (processTaskCallback (.obj t)).time = d ∧
       (processTaskPromise (.obj t)).time = d ∧
       (processTaskAsync (.obj t)).time = d) ∧
    ((t.duration = none ∨ t.duration = some 0) →
       (processTaskCallback (.obj t)).time = 300 ∧
       (processTaskPromise (.obj t)).time = 300 ∧
       (processTaskAsync (.obj t)).time = 300) := by
  have hp : processTaskPromise (.obj t) =
      ⟨effDuration (.obj t), .ok (okMessage (.obj t))⟩ :=
    processTaskPromise_ok _ h
  have hcb := (procConventions_eq (.obj t)).1
  have has := (procConventions_eq (.obj t)).2
  constructor
  · intro d hd hdz
    have heff : effDuration (.obj t) = d := by
      simp [effDuration, durationField, jsOrDefault, hd, hdz]
    rw [hcb, has, hp, heff]
    exact ⟨rfl, rfl, rfl⟩
  · intro hd
    have heff : effDuration (.obj t) = 300 := by
      rcases hd with hd | hd <;> simp [effDuration, durationField, jsOrDefault, hd]
    rw [hcb, has, hp, heff]
    exact ⟨rfl, rfl, rfl⟩

theorem effectiveDurationWait_witness :
    validateTask taskA = .ok () ∧
    ((processTaskCallback taskA).time = 100 ∧
     (processTaskPromise taskA).time = 100 ∧
     (processTaskAsync taskA).time = 100) ∧
    validateTask (.obj ⟨some 8, some "bare", none, none⟩) = .ok () ∧
    ((processTaskCallback (.obj ⟨some 8, some "bare", none, none⟩)).time = 300 ∧
     (processTaskPromise (.obj ⟨some 8, some "bare", none, none⟩)).time = 300 ∧
     (processTaskAsync (.obj ⟨some 8, some "bare", none, none⟩)).time = 300) :=
  ⟨by decide,
   (effectiveDurationWait ⟨some 1, some "alpha", none, some 100⟩ (by decide)).1
     100 rfl (by decide),
   by decide,
   (effectiveDurationWait ⟨some 8, some "bare", none, none⟩ (by decide)).2
     (Or.inl rfl)⟩

/-- Claim C1 (counterexample): a well-formed error-typed descriptor
rejects at virtual instant 0, so with descriptors of durations
[100, 500] where the 500 one is error-typed, `processTasksRace` settles
with the failure of the duration-500 descriptor — not with the outcome of
the minimal-duration descriptor as the claim states. -/
theorem raceFailureBeatsMinDuration :
    effDuration fastTask = 100 ∧ effDuration taskBoom = 500 ∧
    validateTask fastTask = .ok () ∧
    processTasksRace (.arr [fastTask, taskBoom]) = ⟨0, .error boomError⟩ ∧
    (processTasksRace (.arr [fastTask, taskBoom])).result ≠
      (processTaskPromise fastTask).result := by
  decide

/-- Claim C1 (amended): for every non-empty batch, `processTasksRace`
settles with the earliest-settling outcome of the per-descriptor
executions (failures settle at instant 0, successes at their effective
duration), and a tie is won by the descriptor earlier in the input
sequence: the winner's entry splits the settled list so that everything
before it settles strictly later and everything after it settles no
earlier.  In particular, on all-success durations [500, 100, 300] the
duration-100 outcome wins, and on the tie [200, 200] the earlier
descriptor wins. -/
theorem raceEarliestSettledStable :
    (∀ (t : JsTaskVal) (ts : List JsTaskVal), ∃ l r,
        (t :: ts).map processTaskPromise =
          l ++ processTasksRace (.arr (t :: ts)) :: r ∧
        (∀ q ∈ l, (processTasksRace (.arr (t :: ts))).time < q.time) ∧
        (∀ q ∈ r, (processTasksRace (.arr (t :: ts))).time ≤ q.time)) ∧
    (processTasksRace (.arr [raceT500, raceT100, raceT300])).result =
      .ok (okMessage raceT100) ∧
    (processTasksRace (.arr [raceT500, raceT100, raceT300])).time = 100 ∧
    (processTasksRace (.arr [tieA, tieB])).result = .ok (okMessage tieA) ∧
    okMessage tieA ≠ okMessage tieB := by
  refine ⟨?_, by decide, by decide, by decide, by decide⟩
  intro t ts
  have hr : processTasksRace (.arr (t :: ts)) =
      raceStep (processTaskPromise t) (ts.map processTaskPromise) := rfl
  rw [hr, List.map_cons]
  exact raceStep_split (processTaskPromise t) (ts.map processTaskPromise)

/-- Claim C6 (counterexample): the empty batch is rejected by the
taskRunner policies with a plain `Error` ("Tasks must be a non-empty
array"), which is neither of the two taxonomy kinds, and
`processTasksPromises` of `src/asyncTasks.js` does not reject it at all —
it resolves with an empty result list. -/
theorem emptyBatchNotTaxonomyError :
    (processTasksParallel (.arr [])).result = .error (.generic emptyBatchMsg) ∧
    TaskError.isTaxonomy (.generic emptyBatchMsg) = false ∧
    (AsyncTasks.processTasksPromises []).result = .ok [] := by
  decide

/-- Claim C6 (amended): every taskRunner policy rejects an empty or
non-array batch with the plain `Error` "Tasks must be a non-empty array" —
a generic error, not one of the two taxonomy kinds — and never silently
produces an empty result set; `processTasksPromises` of
`src/asyncTasks.js`, having no batch guard, resolves an empty batch
successfully with an empty result list. -/
theorem emptyBatchRejectedWithGenericError :
    processTasksCallbacks (.arr []) = ⟨some (.generic emptyBatchMsg), none, [], 0⟩ ∧
    processTasksCallbacks .notArray = ⟨some (.generic emptyBatchMsg), none, [], 0⟩ ∧
    processTasksAsyncAwait (.arr []) = ⟨.error (.generic emptyBatchMsg), [], 0⟩ ∧
    processTasksAsyncAwait .notArray = ⟨.error (.generic emptyBatchMsg), [], 0⟩ ∧
    processTasksParallel (.arr []) = ⟨0, .error (.generic emptyBatchMsg)⟩ ∧
    processTasksParallel .notArray = ⟨0, .error (.generic emptyBatchMsg)⟩ ∧
    processTasksRace (.arr []) = ⟨0, .error (.generic emptyBatchMsg)⟩ ∧
    processTasksRace .notArray = ⟨0, .error (.generic emptyBatchMsg)⟩ ∧
    TaskError.isTaxonomy (.generic emptyBatchMsg) = false ∧
    AsyncTasks.processTasksPromises [] = ⟨0, .ok []⟩ := by
  decide
